import Mathlib

/-!
Verification development for the BiblGPT conversion orchestrator
(`src/lib/services/openaiService.ts`).

The orchestrator is embedded shallowly:
* strings are `String` / `List Char`; JS regex replacement and `trim` are
  implemented character by character;
* the network is an oracle `Nat → NetOutcome` giving each attempt's outcome;
* the retry loop of `makeAPIRequest` is encoded with a `gas` counter equal to
  `maxRetries - attempt`, which is exactly the guard `attempt < maxRetries`;
* the cancellation/supersession behaviour is a small event-driven transition
  system over an explicit orchestrator state.
-/

namespace BiblGPT

/-- The backtick character (code point 96), written via `Char.ofNat` so that it
can be used in executable definitions. -/
def backtick : Char := Char.ofNat 96

/-- JS whitespace, as matched by the regex class `\s` and stripped by
`String.prototype.trim`: space, tab, line terminators, vertical tab, form
feed, NBSP, the Unicode space separators, and the BOM. -/
def isJsWhitespace (c : Char) : Bool :=
  c = ' ' || c = '\t' || c = '\n' || c = '\r' || c.val = 11 || c.val = 12 ||
  c.val = 0xa0 || c.val = 0x1680 || (0x2000 ≤ c.val && c.val ≤ 0x200a) ||
  c.val = 0x2028 || c.val = 0x2029 || c.val = 0x202f || c.val = 0x205f ||
  c.val = 0x3000 || c.val = 0xfeff

/-- JS `String.prototype.trim` on character lists: drop whitespace from both
ends. -/
def jsTrimList (l : List Char) : List Char :=
  ((l.dropWhile isJsWhitespace).reverse.dropWhile isJsWhitespace).reverse

/-- JS `String.prototype.trim`. -/
def jsTrim (s : String) : String :=
  String.mk (jsTrimList s.data)

/-- `c` matches the letter `target` case-insensitively (regex `i` flag). -/
def lowEq (c target : Char) : Bool := c.toLower == target

/-- The list starts with a match of `/```bibtex/i` (three backticks followed by
the six letters of "bibtex" in any case). -/
def isBibtexMarker (l : List Char) : Bool :=
  match l with
  | a :: b :: c :: d :: e :: f :: g :: h :: i :: _ =>
    a == backtick && b == backtick && c == backtick &&
    lowEq d 'b' && lowEq e 'i' && lowEq f 'b' && lowEq g 't' && lowEq h 'e' && lowEq i 'x'
  | _ => false

/-- Scanner for `response.replace(/```bibtex\s*/gi, '')`.
`n` is the number of characters of a matched marker still to delete (the match
consumes nine characters; the first is consumed on entering deletion mode with
`n = 8`), and `skipWs` records that the greedy `\s*` of a just-matched marker
is still consuming whitespace.  Scanning resumes exactly at the end of each
match, as the JS global replace does. -/
def replAux : Nat → Bool → List Char → List Char
  | _, _, [] => []
  | n + 1, skipWs, _ :: cs => replAux n skipWs cs
  | 0, true, c :: cs =>
    if isJsWhitespace c then replAux 0 true cs
    else if isBibtexMarker (c :: cs) then replAux 8 true cs
    else c :: replAux 0 false cs
  | 0, false, c :: cs =>
    if isBibtexMarker (c :: cs) then replAux 8 true cs
    else c :: replAux 0 false cs

/-- `response.replace(/```bibtex\s*/gi, '')` on character lists. -/
def replaceBibtexAll (l : List Char) : List Char := replAux 0 false l

/-- The list is a match of `/```\s*$/` at its start: three backticks followed
only by whitespace up to the end of the string. -/
def isTrailFence (l : List Char) : Bool :=
  match l with
  | a :: b :: c :: rest =>
    a == backtick && b == backtick && c == backtick && rest.all isJsWhitespace
  | _ => false

/-- `s.replace(/```\s*$/gi, '')` on character lists: the leftmost position
from which the string is three backticks followed only by whitespace is found,
and everything from that position on is removed (the match necessarily extends
to the end of the string, so at most one replacement happens). -/
def stripTrailingFence : List Char → List Char
  | [] => []
  | c :: cs => if isTrailFence (c :: cs) then [] else c :: stripTrailingFence cs

/-- `cleanBibTeXResponse` from `openaiService.ts`:
`response.replace(/```bibtex\s*/gi, '').replace(/```\s*$/gi, '').trim()`. -/
def cleanBibTeXResponse (s : String) : String :=
  String.mk (jsTrimList (stripTrailingFence (replaceBibtexAll s.data)))

/-- A value thrown by a failing attempt: either a JS `Error` (with its
`message`) or a non-`Error` value (the `instanceof Error` test fails). -/
inductive ThrownValue
  | jsError (msg : String)
  | nonError
deriving DecidableEq

/-- Outcome of one network attempt, as produced by the environment:
`ok content` models `completion.choices[0]?.message?.content` (with `none` for
a missing/null content), `failed e` models the vendor call rejecting with
`e`.  A timed-out or superseded attempt surfaces here as
`failed (.jsError "Request was aborted.")`, the rejection produced when the
attempt's `AbortController` fires. -/
inductive NetOutcome
  | ok (content : Option String)
  | failed (e : ThrownValue)
deriving DecidableEq

/-- The body of one attempt of `makeAPIRequest` after the vendor call
resolves: a falsy (`null`/`undefined`/empty) content throws
`"No response content received from OpenAI"` (inside the `try`, hence
retryable), otherwise the content is cleaned and returned. -/
def attemptOutcome (o : NetOutcome) : Except ThrownValue String :=
  match o with
  | .failed e => .error e
  | .ok none => .error (.jsError "No response content received from OpenAI")
  | .ok (some c) =>
    if c = "" then .error (.jsError "No response content received from OpenAI")
    else .ok (cleanBibTeXResponse c)

instance : DecidableEq (Except ThrownValue String) := fun a b =>
  match a, b with
  | .ok x, .ok y => if h : x = y then .isTrue (by rw [h]) else .isFalse (by simp [h])
  | .error x, .error y => if h : x = y then .isTrue (by rw [h]) else .isFalse (by simp [h])
  | .ok _, .error _ => .isFalse (by simp)
  | .error _, .ok _ => .isFalse (by simp)

/-- Observable trace of one call to `makeAPIRequest`: the final result (value
returned or error thrown), how many attempts were made, the waits performed
between attempts (the `setTimeout(..., 1000 * attempt)` delays, in ms, in
order), and the per-attempt abort-timer durations (each attempt runs
`setTimeout(() => abortController.abort(), this.config.timeout)`). -/
structure RequestTrace where
  result : Except ThrownValue String
  attemptsMade : Nat
  delays : List Nat
  timeoutsScheduled : List Nat
deriving DecidableEq

/-- The retry recursion of `makeAPIRequest`, with the guard
`attempt < maxRetries` encoded by the `gas` counter: `gas = maxRetries - attempt`,
so `gas = 0` exactly when `attempt < maxRetries` fails and the error is
rethrown, and `gas = g + 1` exactly when a retry is performed (after a wait of
`1000 * attempt` ms) with `attempt + 1` and `gas = g`. -/
def makeAPIRequestGas (oracle : Nat → NetOutcome) (timeout : Nat) : Nat → Nat → RequestTrace
  | gas, attempt =>
    match attemptOutcome (oracle attempt), gas with
    | .ok s, _ => ⟨.ok s, 1, [], [timeout]⟩
    | .error e, 0 => ⟨.error e, 1, [], [timeout]⟩
    | .error _, g + 1 =>
      let rest := makeAPIRequestGas oracle timeout g (attempt + 1)
      ⟨rest.result, rest.attemptsMade + 1, 1000 * attempt :: rest.delays,
        timeout :: rest.timeoutsScheduled⟩

/-- `makeAPIRequest(prompt, attempt)` with retry limit `maxRetries` and
per-attempt abort timer `timeout`; the network is the `oracle`. -/
def makeAPIRequest (oracle : Nat → NetOutcome) (timeout maxRetries attempt : Nat) : RequestTrace :=
  makeAPIRequestGas oracle timeout (maxRetries - attempt) attempt

/-- `haystack.includes(needle)` helper: `needle` occurs at the start of the
list. -/
def charsStartWith : List Char → List Char → Bool
  | [], _ => true
  | _ :: _, [] => false
  | p :: ps, c :: cs => p == c && charsStartWith ps cs

/-- `haystack.includes(needle)` helper: `needle` occurs somewhere in the
list. -/
def charsContain (needle : List Char) : List Char → Bool
  | [] => charsStartWith needle []
  | c :: cs => charsStartWith needle (c :: cs) || charsContain needle cs

/-- JS `s.includes(sub)`. -/
def strIncludes (s sub : String) : Bool := charsContain sub.data s.data

/-- `getErrorMessage` from `openaiService.ts`: classify the thrown value into
a user-facing message by substring tests on the `Error` message. -/
def getErrorMessage : ThrownValue → String
  | .nonError => "An unexpected error occurred. Please try again."
  | .jsError msg =>
    if strIncludes msg "API key" then
      "Invalid API key. Please check your OpenAI API key in settings."
    else if strIncludes msg "timeout" then "Request timed out. Please try again."
    else if strIncludes msg "rate limit" then
      "Rate limit exceeded. Please wait a moment and try again."
    else if strIncludes msg "insufficient_quota" then
      "API quota exceeded. Please check your OpenAI billing."
    else if strIncludes msg "network" || strIncludes msg "fetch" then
      "Network error. Please check your internet connection and try again."
    else msg

/-- The result cache `Map<string, string>`, as an association list with
`Map.get` semantics. -/
def mapGet (m : List (String × String)) (k : String) : Option String :=
  match m with
  | [] => none
  | (k', v) :: rest => if k' = k then some v else mapGet rest k

/-- `Map.set`: replace the binding if the key is present, else append. -/
def mapSet (m : List (String × String)) (k v : String) : List (String × String) :=
  match m with
  | [] => [(k, v)]
  | (k', v') :: rest => if k' = k then (k, v) :: rest else (k', v') :: mapSet rest k v

/-- `ConversionResult` from `openaiService.ts`. -/
structure ConversionResult where
  success : Bool
  bibtex : Option String := none
  error : Option String := none
deriving DecidableEq

/-- The error message returned when no API key is configured. -/
def notConfiguredMsg : String :=
  "OpenAI API key not configured. Please set your API key in settings."

/-- The error message returned for empty/whitespace-only input. -/
def emptyInputMsg : String := "Please provide an APA reference to convert."

/-- Observable outcome of one call to `convertToBibTeX`: the returned
`ConversionResult`, the cache afterwards, the number of network attempts made,
the retry delays performed, and the full prompt sent (if any network path was
taken). -/
structure ConvertOutcome where
  result : ConversionResult
  cache : List (String × String)
  networkAttempts : Nat
  delays : List Nat
  promptSent : Option String
deriving DecidableEq

/-- `maxRetries || 3` (JS: `0` and missing are both falsy). -/
def maxRetriesOr3 (n : Nat) : Nat := if n = 0 then 3 else n

/-- `convertToBibTeX(apaReference)` from `openaiService.ts`.  `apiKey` is the
value read from the settings store at call time (JS falsy = the empty
string); `cache` is `this.resultCache`; `template` is the loaded prompt
template; the `oracle`/`timeout`/`maxRetries` parameterise `makeAPIRequest`.
Order of the source: key check, client init, empty-input check, then inside
the `try`: cache fast path (skipped for a falsy cached value), prompt
construction, `makeAPIRequest`, caching of truthy results; the `catch`
converts any thrown value via `getErrorMessage`. -/
def convertToBibTeX (apiKey : String) (cache : List (String × String)) (template : String)
    (oracle : Nat → NetOutcome) (timeout maxRetries : Nat) (apaReference : String) :
    ConvertOutcome :=
  if apiKey = "" then
    ⟨⟨false, none, some notConfiguredMsg⟩, cache, 0, [], none⟩
  else if jsTrim apaReference = "" then
    ⟨⟨false, none, some emptyInputMsg⟩, cache, 0, [], none⟩
  else
    let key := jsTrim apaReference
    let viaNetwork : ConvertOutcome :=
      let fullPrompt := template ++ "\n\nConvert this APA reference to BibTeX:\n\n" ++ apaReference
      let tr := makeAPIRequest oracle timeout (maxRetriesOr3 maxRetries) 1
      match tr.result with
      | .ok r =>
        ⟨⟨true, some r, none⟩, if r = "" then cache else mapSet cache key r,
          tr.attemptsMade, tr.delays, some fullPrompt⟩
      | .error e =>
        ⟨⟨false, none, some (getErrorMessage e)⟩, cache, tr.attemptsMade, tr.delays,
          some fullPrompt⟩
    match mapGet cache key with
    | some v => if v = "" then viaNetwork else ⟨⟨true, some v, none⟩, cache, 0, [], none⟩
    | none => viaNetwork

/-- The service configuration with every field present, as built by the
constructor. -/
structure ServiceConfig where
  apiKey : String
  model : String
  maxRetries : Nat
  timeout : Nat
deriving DecidableEq

/-- `Partial<OpenAIServiceConfig>`: the constructor argument, every field
optional. -/
structure ServiceConfigArg where
  apiKey : Option String := none
  model : Option String := none
  maxRetries : Option Nat := none
  timeout : Option Nat := none

/-- The `OpenAIService` constructor's config computation: defaults
`maxRetries = 3`, `timeout = 30000`, `apiKey = ''`, model from the settings
store (falling back to `'gpt-5-nano'`) — each overridden by the corresponding
field of the argument when present, because of the trailing `...config`
spread. -/
def mkServiceConfig (settingsModel : String) (c : ServiceConfigArg) : ServiceConfig :=
  { model := match c.model with
      | some m => m
      | none => if settingsModel = "" then "gpt-5-nano" else settingsModel
    maxRetries := c.maxRetries.getD 3
    timeout := c.timeout.getD 30000
    apiKey := c.apiKey.getD "" }

/-!
## Event-driven model of two overlapping `convertToBibTeX` calls

JS is single threaded: a call runs synchronously up to each `await`, and the
interleaving of the two calls is the order in which the awaited promises
resolve.  The awaits of one call are: the prompt-template load, each vendor
network call, and each retry `setTimeout`.  We model a pair of calls on the
same service instance as two tasks, each a small state machine, driven by an
externally chosen schedule of resolution events.  The shared service fields
(`resultCache`, `inflightAbortController`) and the set of aborted controllers
are explicit state.  The per-attempt 30s abort timer only ever aborts the
in-flight controller, which the schedule can already express through
supersession, so it is not given its own event.
-/

/-- Where one task (one `convertToBibTeX` call) is in its execution. -/
inductive TaskPhase
  | notStarted
  | loadingTemplate
  | awaitingNet (ctrl : Nat) (attempt : Nat)
  | sleeping (attempt : Nat)
  | finished (r : ConversionResult)
deriving DecidableEq

/-- Shared state of the service instance plus the phases of the two tasks.
`inflight` is `this.inflightAbortController` (by controller id), `aborted`
the ids on which `abort()` has been called, `nextCtrl` a supply of fresh
ids. -/
structure OrchestratorState where
  phase0 : TaskPhase
  phase1 : TaskPhase
  inflight : Option Nat
  aborted : List Nat
  nextCtrl : Nat
  cache : List (String × String)
deriving DecidableEq

/-- Phase of task `t` (`false` = first task, `true` = second task). -/
def phaseOf (s : OrchestratorState) (t : Bool) : TaskPhase :=
  if t then s.phase1 else s.phase0

/-- Replace the phase of task `t`. -/
def setPhase (s : OrchestratorState) (t : Bool) (p : TaskPhase) : OrchestratorState :=
  if t then { s with phase1 := p } else { s with phase0 := p }

/-- The synchronous start of an attempt in `makeAPIRequest`: `cancelInFlight()`
(abort and clear the current in-flight controller), then create a fresh
controller, record it as in flight, and issue the vendor call. -/
def issueRequest (s : OrchestratorState) (t : Bool) (attempt : Nat) : OrchestratorState :=
  let aborted' := match s.inflight with
    | some c => c :: s.aborted
    | none => s.aborted
  let s' : OrchestratorState :=
    { s with
      aborted := aborted'
      inflight := some s.nextCtrl
      nextCtrl := s.nextCtrl + 1 }
  setPhase s' t (.awaitingNet s.nextCtrl attempt)

/-- Resolution events the scheduler can deliver: a task's call starting, its
template load resolving, its pending vendor call resolving, its retry timer
firing.  An event that does not match the task's phase is a no-op. -/
inductive OrchEvent
  | start (t : Bool)
  | templateLoaded (t : Bool)
  | netResolved (t : Bool)
  | timerFired (t : Bool)
deriving DecidableEq

/-- One scheduler step.  `start` runs `convertToBibTeX` synchronously up to
the template `await` (key check, empty-input check, cache fast path);
`templateLoaded` issues attempt 1; `netResolved` delivers the pending vendor
call's resolution — a rejection with `"Request was aborted."` if its
controller was aborted, otherwise the oracle's outcome for that attempt — and
runs the success path (clear the in-flight controller, cache, return) or the
catch (retry after a delay, or finish with the classified failure);
`timerFired` issues the next attempt. -/
def orchStep (apiKey : String) (input : Bool → String) (oracle : Bool → Nat → NetOutcome)
    (maxRetries : Nat) (s : OrchestratorState) (ev : OrchEvent) : OrchestratorState :=
  match ev with
  | .start t =>
    match phaseOf s t with
    | .notStarted =>
      if apiKey = "" then setPhase s t (.finished ⟨false, none, some notConfiguredMsg⟩)
      else if jsTrim (input t) = "" then
        setPhase s t (.finished ⟨false, none, some emptyInputMsg⟩)
      else
        match mapGet s.cache (jsTrim (input t)) with
        | some v =>
          if v = "" then setPhase s t .loadingTemplate
          else setPhase s t (.finished ⟨true, some v, none⟩)
        | none => setPhase s t .loadingTemplate
    | _ => s
  | .templateLoaded t =>
    match phaseOf s t with
    | .loadingTemplate => issueRequest s t 1
    | _ => s
  | .netResolved t =>
    match phaseOf s t with
    | .awaitingNet ctrl attempt =>
      let out := if s.aborted.contains ctrl then
          NetOutcome.failed (.jsError "Request was aborted.")
        else oracle t attempt
      match attemptOutcome out with
      | .ok r =>
        let s1 := { s with inflight := none }
        let s2 := if r = "" then s1
          else { s1 with cache := mapSet s1.cache (jsTrim (input t)) r }
        setPhase s2 t (.finished ⟨true, some r, none⟩)
      | .error e =>
        if attempt < maxRetriesOr3 maxRetries then setPhase s t (.sleeping attempt)
        else setPhase s t (.finished ⟨false, none, some (getErrorMessage e)⟩)
    | _ => s
  | .timerFired t =>
    match phaseOf s t with
    | .sleeping attempt => issueRequest s t (attempt + 1)
    | _ => s

/-- Run a schedule of events from a state. -/
def orchRun (apiKey : String) (input : Bool → String) (oracle : Bool → Nat → NetOutcome)
    (maxRetries : Nat) : OrchestratorState → List OrchEvent → OrchestratorState
  | s, [] => s
  | s, ev :: rest => orchRun apiKey input oracle maxRetries
      (orchStep apiKey input oracle maxRetries s ev) rest

/-- The initial state: neither call started, no controller in flight. -/
def orchInit (cache : List (String × String)) : OrchestratorState :=
  ⟨.notStarted, .notStarted, none, [], 0, cache⟩

/-- The controller id a phase is awaiting, if any. -/
def awaitingCtrl : TaskPhase → Option Nat
  | .awaitingNet c _ => some c
  | _ => none

/-- Inductive invariant of the orchestrator: awaiting controllers are below
the fresh-id supply, a non-aborted awaiting controller is exactly the
in-flight one, aborted and in-flight ids are below the supply, and the two
tasks never await the same controller. -/
structure OrchInv (s : OrchestratorState) : Prop where
  bound : ∀ t c, awaitingCtrl (phaseOf s t) = some c → c < s.nextCtrl
  flight : ∀ t c, awaitingCtrl (phaseOf s t) = some c → s.aborted.contains c = false →
    s.inflight = some c
  abortedLt : ∀ c, s.aborted.contains c = true → c < s.nextCtrl
  inflightLt : ∀ c, s.inflight = some c → c < s.nextCtrl
  distinct : ∀ c0 c1, awaitingCtrl (phaseOf s false) = some c0 →
    awaitingCtrl (phaseOf s true) = some c1 → c0 ≠ c1

/-- At most one non-aborted vendor request is pending: the two tasks are never
simultaneously awaiting requests that are both still unaborted. -/
def singleFlight (s : OrchestratorState) : Prop :=
  ∀ c0 k0 c1 k1, s.phase0 = .awaitingNet c0 k0 → s.phase1 = .awaitingNet c1 k1 →
    s.aborted.contains c0 = false → s.aborted.contains c1 = false → False

/-- Whenever one task still has a non-aborted request pending and the other
task issues a request (on its template load resolving, or on its retry timer
firing), the pending request's controller is aborted by that step — the
`cancelInFlight()` call at the start of every attempt. -/
def cancelsPrior (apiKey : String) (input : Bool → String) (oracle : Bool → Nat → NetOutcome)
    (mr : Nat) (s : OrchestratorState) : Prop :=
  ∀ (t : Bool) (c k : Nat), phaseOf s t = .awaitingNet c k → s.aborted.contains c = false →
    ((phaseOf s (!t) = .loadingTemplate →
        (orchStep apiKey input oracle mr s (.templateLoaded (!t))).aborted.contains c = true) ∧
      (∀ a, phaseOf s (!t) = .sleeping a →
        (orchStep apiKey input oracle mr s (.timerFired (!t))).aborted.contains c = true))

/-- Inputs of the two overlapping calls in the supersession scenario: the
first call converts `"x"`, the second `"y"`. -/
def c1Input : Bool → String := fun t => if t then "y" else "x"

/-- Network outcomes in the supersession scenario: the second call's first
attempt succeeds with `"B"`; the first call's second attempt (its retry after
being aborted) succeeds with `"A"`; everything else fails. -/
def c1Oracle : Bool → Nat → NetOutcome := fun t k =>
  match t, k with
  | false, 2 => .ok (some "A")
  | true, 1 => .ok (some "B")
  | _, _ => .failed (.jsError "boom")

/-- Schedule prefix: both calls start and issue their first attempts; the
second issuance supersedes (aborts) the first call's request. -/
def c1SchedPre : List OrchEvent :=
  [.start false, .templateLoaded false, .start true, .templateLoaded true]

/-- Full schedule: after the supersession, the first call's aborted attempt
rejects, the second call succeeds, then the first call's retry timer fires and
its second attempt succeeds. -/
def c1Sched : List OrchEvent :=
  c1SchedPre ++ [.netResolved false, .netResolved true, .timerFired false, .netResolved false]

/-- Network outcomes for the C2 retry scenario: attempts 1 and 2 fail,
attempt 3 succeeds. -/
def c2WitOracle : Nat → NetOutcome := fun n =>
  if n = 3 then .ok (some "@r") else .failed (.jsError "boom")

theorem phaseOf_setPhase (s : OrchestratorState) (t u : Bool) (p : TaskPhase) :
    phaseOf (setPhase s t p) u = if u = t then p else phaseOf s u := by
  cases t <;> cases u <;> simp [setPhase, phaseOf]

theorem setPhase_inflight (s : OrchestratorState) (t : Bool) (p : TaskPhase) :
    (setPhase s t p).inflight = s.inflight := by
  cases t <;> simp [setPhase]

theorem setPhase_aborted (s : OrchestratorState) (t : Bool) (p : TaskPhase) :
    (setPhase s t p).aborted = s.aborted := by
  cases t <;> simp [setPhase]

theorem setPhase_nextCtrl (s : OrchestratorState) (t : Bool) (p : TaskPhase) :
    (setPhase s t p).nextCtrl = s.nextCtrl := by
  cases t <;> simp [setPhase]

theorem setPhase_cache (s : OrchestratorState) (t : Bool) (p : TaskPhase) :
    (setPhase s t p).cache = s.cache := by
  cases t <;> simp [setPhase]

theorem issueRequest_nextCtrl (s : OrchestratorState) (t : Bool) (a : Nat) :
    (issueRequest s t a).nextCtrl = s.nextCtrl + 1 := by
  simp [issueRequest, setPhase_nextCtrl]

theorem issueRequest_inflight (s : OrchestratorState) (t : Bool) (a : Nat) :
    (issueRequest s t a).inflight = some s.nextCtrl := by
  simp [issueRequest, setPhase_inflight]

theorem issueRequest_aborted (s : OrchestratorState) (t : Bool) (a : Nat) :
    (issueRequest s t a).aborted =
      match s.inflight with
      | some c => c :: s.aborted
      | none => s.aborted := by
  simp [issueRequest, setPhase_aborted]

theorem phaseOf_issueRequest (s : OrchestratorState) (t u : Bool) (a : Nat) :
    phaseOf (issueRequest s t a) u =
      if u = t then .awaitingNet s.nextCtrl a else phaseOf s u := by
  cases t <;> cases u <;> simp [issueRequest, setPhase, phaseOf]

/-- A phase change that does not introduce a new awaiting request preserves
the invariant. -/
theorem orchInv_setPhase {s : OrchestratorState} (h : OrchInv s) (t : Bool) (p : TaskPhase)
    (hp : awaitingCtrl p = none) : OrchInv (setPhase s t p) := by
  constructor
  · intro u c hc
    rw [phaseOf_setPhase] at hc
    rw [setPhase_nextCtrl]
    by_cases hu : u = t
    · rw [if_pos hu, hp] at hc; cases hc
    · rw [if_neg hu] at hc; exact h.bound u c hc
  · intro u c hc hab
    rw [phaseOf_setPhase] at hc
    rw [setPhase_aborted] at hab
    rw [setPhase_inflight]
    by_cases hu : u = t
    · rw [if_pos hu, hp] at hc; cases hc
    · rw [if_neg hu] at hc; exact h.flight u c hc hab
  · intro c hc
    rw [setPhase_aborted] at hc
    rw [setPhase_nextCtrl]
    exact h.abortedLt c hc
  · intro c hc
    rw [setPhase_inflight] at hc
    rw [setPhase_nextCtrl]
    exact h.inflightLt c hc
  · intro c0 c1 h0 h1
    rw [phaseOf_setPhase] at h0 h1
    by_cases ht : t = false
    · subst ht
      rw [if_pos rfl, hp] at h0; cases h0
    · have ht' : t = true := by revert ht; cases t <;> simp
      subst ht'
      rw [if_pos rfl, hp] at h1; cases h1

/-- The success path of `makeAPIRequest` — clearing the in-flight controller,
updating the cache and finishing — preserves the invariant, given that the
finishing task's own request was the non-aborted one in flight. -/
theorem orchInv_success {s : OrchestratorState} (h : OrchInv s) (t : Bool) (ctrl : Nat)
    (hawait : awaitingCtrl (phaseOf s t) = some ctrl)
    (hab : s.aborted.contains ctrl = false)
    (p : TaskPhase) (hp : awaitingCtrl p = none) (cc : List (String × String)) :
    OrchInv (setPhase { s with inflight := none, cache := cc } t p) := by
  have hother : ∀ u c, u ≠ t → awaitingCtrl (phaseOf s u) = some c →
      s.aborted.contains c = false → False := by
    intro u c hu hc hcab
    have h1 : s.inflight = some ctrl := h.flight t ctrl hawait hab
    have h2 : s.inflight = some c := h.flight u c hc hcab
    have hcc : c = ctrl := by rw [h1] at h2; cases h2; rfl
    subst hcc
    cases u <;> cases t <;> try exact hu rfl
    · exact h.distinct c c hc hawait rfl
    · exact h.distinct c c hawait hc rfl
  constructor
  · intro u c hc
    rw [phaseOf_setPhase] at hc
    rw [setPhase_nextCtrl]
    by_cases hu : u = t
    · rw [if_pos hu, hp] at hc; cases hc
    · rw [if_neg hu] at hc; exact h.bound u c hc
  · intro u c hc hcab
    rw [phaseOf_setPhase] at hc
    rw [setPhase_aborted] at hcab
    by_cases hu : u = t
    · rw [if_pos hu, hp] at hc; cases hc
    · rw [if_neg hu] at hc
      exact (hother u c hu hc hcab).elim
  · intro c hc
    rw [setPhase_aborted] at hc
    rw [setPhase_nextCtrl]
    exact h.abortedLt c hc
  · intro c hc
    rw [setPhase_inflight] at hc
    cases hc
  · intro c0 c1 h0 h1
    rw [phaseOf_setPhase] at h0 h1
    by_cases ht : t = false
    · subst ht; rw [if_pos rfl, hp] at h0; cases h0
    · have ht' : t = true := by revert ht; cases t <;> simp
      subst ht'; rw [if_pos rfl, hp] at h1; cases h1

/-- Issuing a new request (the `cancelInFlight` + fresh controller sequence)
preserves the invariant. -/
theorem orchInv_issue {s : OrchestratorState} (h : OrchInv s) (t : Bool) (a : Nat) :
    OrchInv (issueRequest s t a) := by
  have habsub : ∀ c, (issueRequest s t a).aborted.contains c = false →
      s.aborted.contains c = false ∧ s.inflight ≠ some c := by
    intro c hc
    rw [issueRequest_aborted] at hc
    cases hinf : s.inflight with
    | none => rw [hinf] at hc; exact ⟨hc, by simp [hinf]⟩
    | some ci =>
      rw [hinf] at hc
      simp only [List.contains_cons, Bool.or_eq_false_iff, beq_eq_false_iff_ne] at hc
      refine ⟨hc.2, ?_⟩
      intro hh
      injection hh with hh2
      exact hc.1 hh2.symm
  constructor
  · intro u c hc
    rw [phaseOf_issueRequest] at hc
    rw [issueRequest_nextCtrl]
    by_cases hu : u = t
    · rw [if_pos hu] at hc
      simp only [awaitingCtrl] at hc
      cases hc; omega
    · rw [if_neg hu] at hc
      have := h.bound u c hc; omega
  · intro u c hc hcab
    rw [phaseOf_issueRequest] at hc
    rw [issueRequest_inflight]
    by_cases hu : u = t
    · rw [if_pos hu] at hc
      simp only [awaitingCtrl] at hc
      cases hc; rfl
    · rw [if_neg hu] at hc
      obtain ⟨hab', hinf'⟩ := habsub c hcab
      exact absurd (h.flight u c hc hab') hinf'
  · intro c hc
    rw [issueRequest_aborted] at hc
    rw [issueRequest_nextCtrl]
    cases hinf : s.inflight with
    | none => rw [hinf] at hc; have := h.abortedLt c hc; omega
    | some ci =>
      rw [hinf] at hc
      simp only [List.contains_cons, Bool.or_eq_true, beq_iff_eq] at hc
      rcases hc with hc | hc
      · subst hc; have := h.inflightLt c hinf; omega
      · have := h.abortedLt c hc; omega
  · intro c hc
    rw [issueRequest_inflight] at hc
    rw [issueRequest_nextCtrl]
    cases hc; omega
  · intro c0 c1 h0 h1
    rw [phaseOf_issueRequest] at h0 h1
    cases t
    · rw [if_pos rfl] at h0
      rw [if_neg (by simp)] at h1
      simp only [awaitingCtrl] at h0
      cases h0
      have := h.bound true c1 h1; omega
    · rw [if_pos rfl] at h1
      rw [if_neg (by simp)] at h0
      simp only [awaitingCtrl] at h1
      cases h1
      have := h.bound false c0 h0; omega

/-- Every scheduler step preserves the invariant. -/
theorem orchStep_inv (apiKey : String) (input : Bool → String) (oracle : Bool → Nat → NetOutcome)
    (mr : Nat) {s : OrchestratorState} (h : OrchInv s) (ev : OrchEvent) :
    OrchInv (orchStep apiKey input oracle mr s ev) := by
  cases ev with
  | start t =>
    simp only [orchStep]
    cases hp : phaseOf s t with
    | notStarted =>
      by_cases hk : apiKey = ""
      · simp only [hk, if_pos rfl]
        exact orchInv_setPhase h t _ rfl
      · simp only [if_neg hk]
        by_cases he : jsTrim (input t) = ""
        · simp only [he, if_pos rfl]
          exact orchInv_setPhase h t _ rfl
        · simp only [if_neg he]
          cases hm : mapGet s.cache (jsTrim (input t)) with
          | none => exact orchInv_setPhase h t _ rfl
          | some v =>
            by_cases hv : v = ""
            · simp only [hv, if_pos rfl]
              exact orchInv_setPhase h t _ rfl
            · simp only [if_neg hv]
              exact orchInv_setPhase h t _ rfl
    | loadingTemplate => exact h
    | awaitingNet c a => exact h
    | sleeping a => exact h
    | finished r => exact h
  | templateLoaded t =>
    simp only [orchStep]
    cases hp : phaseOf s t with
    | loadingTemplate => exact orchInv_issue h t 1
    | notStarted => exact h
    | awaitingNet c a => exact h
    | sleeping a => exact h
    | finished r => exact h
  | netResolved t =>
    simp only [orchStep]
    cases hp : phaseOf s t with
    | awaitingNet ctrl attempt =>
      cases habt : s.aborted.contains ctrl with
      | true =>
        simp only [habt, if_pos rfl, attemptOutcome]
        by_cases hlt : attempt < maxRetriesOr3 mr
        · simp only [if_pos hlt]
          exact orchInv_setPhase h t _ rfl
        · simp only [if_neg hlt]
          exact orchInv_setPhase h t _ rfl
      | false =>
        simp only [habt, Bool.false_eq_true, if_neg, ite_false]
        have hp' : awaitingCtrl (phaseOf s t) = some ctrl := by rw [hp]; rfl
        split
        · next r heq =>
          by_cases hr : r = ""
          · rw [if_pos hr]
            exact orchInv_success h t ctrl hp' habt (.finished ⟨true, some r, none⟩) rfl s.cache
          · rw [if_neg hr]
            exact orchInv_success h t ctrl hp' habt (.finished ⟨true, some r, none⟩) rfl _
        · next e heq =>
          by_cases hlt : attempt < maxRetriesOr3 mr
          · rw [if_pos hlt]
            exact orchInv_setPhase h t _ rfl
          · rw [if_neg hlt]
            exact orchInv_setPhase h t _ rfl
    | notStarted => exact h
    | loadingTemplate => exact h
    | sleeping a => exact h
    | finished r => exact h
  | timerFired t =>
    simp only [orchStep]
    cases hp : phaseOf s t with
    | sleeping a => exact orchInv_issue h t (a + 1)
    | notStarted => exact h
    | loadingTemplate => exact h
    | awaitingNet c a => exact h
    | finished r => exact h

/-- The initial state satisfies the invariant. -/
theorem orchInit_inv (cache : List (String × String)) : OrchInv (orchInit cache) := by
  constructor
  · intro t c hc
    cases t <;> simp [orchInit, phaseOf, awaitingCtrl] at hc
  · intro t c hc hab
    cases t <;> simp [orchInit, phaseOf, awaitingCtrl] at hc
  · intro c hc
    simp [orchInit, List.contains] at hc
  · intro c hc
    simp [orchInit] at hc
  · intro c0 c1 h0 h1
    simp [orchInit, phaseOf, awaitingCtrl] at h0

/-- The invariant holds after running any schedule. -/
theorem orchRun_inv (apiKey : String) (input : Bool → String) (oracle : Bool → Nat → NetOutcome)
    (mr : Nat) {s : OrchestratorState} (h : OrchInv s) (sched : List OrchEvent) :
    OrchInv (orchRun apiKey input oracle mr s sched) := by
  induction sched generalizing s with
  | nil => exact h
  | cons ev rest ih =>
    exact ih (orchStep_inv apiKey input oracle mr h ev)

theorem singleFlight_of_inv {s : OrchestratorState} (h : OrchInv s) : singleFlight s := by
  intro c0 k0 c1 k1 h0 h1 hab0 hab1
  have f0 : s.inflight = some c0 :=
    h.flight false c0 (by simp [phaseOf, h0, awaitingCtrl]) hab0
  have f1 : s.inflight = some c1 :=
    h.flight true c1 (by simp [phaseOf, h1, awaitingCtrl]) hab1
  have hne : c0 ≠ c1 :=
    h.distinct c0 c1 (by simp [phaseOf, h0, awaitingCtrl]) (by simp [phaseOf, h1, awaitingCtrl])
  rw [f0] at f1
  injection f1 with f1
  exact hne f1

theorem cancelsPrior_of_inv (apiKey : String) (input : Bool → String)
    (oracle : Bool → Nat → NetOutcome) (mr : Nat) {s : OrchestratorState} (h : OrchInv s) :
    cancelsPrior apiKey input oracle mr s := by
  intro t c k hawait hab
  have hinf : s.inflight = some c :=
    h.flight t c (by rw [hawait]; rfl) hab
  have habort : ∀ a, (issueRequest s (!t) a).aborted.contains c = true := by
    intro a
    rw [issueRequest_aborted, hinf]
    simp [List.contains_cons]
  constructor
  · intro hother
    simp only [orchStep, hother]
    exact habort 1
  · intro a hother
    simp only [orchStep, hother]
    exact habort (a + 1)

theorem isBibtexMarker_head {c : Char} {cs : List Char} (h : isBibtexMarker (c :: cs) = true) :
    c = backtick := by
  unfold isBibtexMarker at h
  split at h
  · next a b c' d e f g i j rest heq =>
    injection heq with h1 h2
    subst h1
    simp only [Bool.and_eq_true, beq_iff_eq] at h
    exact h.1.1.1.1.1.1.1.1
  · cases h

theorem isBibtexMarker_eq_false {c : Char} (cs : List Char) (hc : c ≠ backtick) :
    isBibtexMarker (c :: cs) = false := by
  cases h : isBibtexMarker (c :: cs)
  · rfl
  · exact absurd (isBibtexMarker_head h) hc

theorem replAux_step_false (c : Char) (cs : List Char) :
    replAux 0 false (c :: cs) =
      if isBibtexMarker (c :: cs) then replAux 8 true cs else c :: replAux 0 false cs := rfl

theorem replAux_step_true (c : Char) (cs : List Char) :
    replAux 0 true (c :: cs) =
      if isJsWhitespace c then replAux 0 true cs
      else if isBibtexMarker (c :: cs) then replAux 8 true cs
      else c :: replAux 0 false cs := rfl

/-- The deletion mode of the scanner removes exactly the next `l.length`
characters. -/
theorem replAux_delete (l m : List Char) (b : Bool) :
    replAux l.length b (l ++ m) = replAux 0 b m := by
  induction l with
  | nil => rfl
  | cons c cs ih => simpa [replAux] using ih

theorem replAux_cons {c : Char} (cs : List Char) (hc : c ≠ backtick) :
    replAux 0 false (c :: cs) = c :: replAux 0 false cs := by
  rw [replAux_step_false, if_neg]
  rw [isBibtexMarker_eq_false cs hc]
  simp

/-- The scanner passes unchanged over a backtick-free prefix. -/
theorem replAux_append (l m : List Char) (hl : ∀ c ∈ l, c ≠ backtick) :
    replAux 0 false (l ++ m) = l ++ replAux 0 false m := by
  induction l with
  | nil => rfl
  | cons c cs ih =>
    rw [List.cons_append, replAux_cons _ (hl c (by simp)),
      ih (fun x hx => hl x (by simp [hx]))]
    rfl

/-- Consuming one `/```bibtex/i` match switches the scanner to
whitespace-skipping mode after the marker's nine characters. -/
theorem replAux_marker (d e f g h i : Char) (rest : List Char)
    (hd : lowEq d 'b' = true) (he : lowEq e 'i' = true) (hf : lowEq f 'b' = true)
    (hg : lowEq g 't' = true) (hh : lowEq h 'e' = true) (hi : lowEq i 'x' = true) :
    replAux 0 false
        (backtick :: backtick :: backtick :: d :: e :: f :: g :: h :: i :: rest) =
      replAux 0 true rest := by
  have hm : isBibtexMarker
      (backtick :: backtick :: backtick :: d :: e :: f :: g :: h :: i :: rest) = true := by
    simp [isBibtexMarker, hd, he, hf, hg, hh, hi]
  rw [replAux_step_false, if_pos hm]
  exact replAux_delete [backtick, backtick, d, e, f, g, h, i] rest true

/-- Whitespace-skipping mode is the normal mode run on the list with its
leading whitespace dropped. -/
theorem replAux_true_eq (l : List Char) :
    replAux 0 true l = replAux 0 false (l.dropWhile isJsWhitespace) := by
  induction l with
  | nil => rfl
  | cons c cs ih =>
    cases hw : isJsWhitespace c with
    | true => rw [replAux_step_true, if_pos hw, List.dropWhile_cons, if_pos hw, ih]
    | false =>
      rw [replAux_step_true, List.dropWhile_cons]
      simp only [hw, Bool.false_eq_true, if_false]
      rw [replAux_step_false]

theorem isTrailFence_head {c : Char} {cs : List Char} (h : isTrailFence (c :: cs) = true) :
    c = backtick := by
  unfold isTrailFence at h
  split at h
  · next a b c' rest heq =>
    injection heq with h1 h2
    subst h1
    simp only [Bool.and_eq_true, beq_iff_eq] at h
    exact h.1.1.1
  · cases h

theorem isTrailFence_eq_false {c : Char} (cs : List Char) (hc : c ≠ backtick) :
    isTrailFence (c :: cs) = false := by
  cases h : isTrailFence (c :: cs)
  · rfl
  · exact absurd (isTrailFence_head h) hc

theorem isTrailFence_decomp : ∀ {l : List Char}, isTrailFence l = true →
    ∃ rest, l = backtick :: backtick :: backtick :: rest ∧ rest.all isJsWhitespace = true := by
  intro l h
  unfold isTrailFence at h
  split at h
  · next a b c rest =>
    simp only [Bool.and_eq_true, beq_iff_eq] at h
    exact ⟨rest, by rw [h.1.1.1, h.1.1.2, h.1.2], h.2⟩
  · cases h

theorem stripTrailingFence_step (c : Char) (cs : List Char) :
    stripTrailingFence (c :: cs) =
      if isTrailFence (c :: cs) then [] else c :: stripTrailingFence cs := rfl

theorem stripTrailingFence_cons {c : Char} (cs : List Char) (hc : c ≠ backtick) :
    stripTrailingFence (c :: cs) = c :: stripTrailingFence cs := by
  rw [stripTrailingFence_step, if_neg]
  rw [isTrailFence_eq_false cs hc]
  simp

/-- The trailing-fence removal passes unchanged over a backtick-free
prefix. -/
theorem stripTrailingFence_append (l m : List Char) (hl : ∀ c ∈ l, c ≠ backtick) :
    stripTrailingFence (l ++ m) = l ++ stripTrailingFence m := by
  induction l with
  | nil => rfl
  | cons c cs ih =>
    rw [List.cons_append, stripTrailingFence_cons _ (hl c (by simp)),
      ih (fun x hx => hl x (by simp [hx]))]
    rfl

/-- `replace(/```\s*$/gi, '')` only ever removes a suffix consisting of three
backticks followed by whitespace: either the string is unchanged, or it splits
as `kept ++ three backticks ++ whitespace` and exactly the kept prefix
remains. -/
theorem stripTrailingFence_spec (l : List Char) :
    stripTrailingFence l = l ∨
      ∃ p rest, l = p ++ backtick :: backtick :: backtick :: rest ∧
        rest.all isJsWhitespace = true ∧ stripTrailingFence l = p := by
  induction l with
  | nil => left; rfl
  | cons c cs ih =>
    cases hf : isTrailFence (c :: cs) with
    | true =>
      right
      obtain ⟨rest, heq, hws⟩ := isTrailFence_decomp hf
      refine ⟨[], rest, by rw [heq]; rfl, hws, ?_⟩
      rw [stripTrailingFence_step, if_pos hf]
    | false =>
      have hstep : stripTrailingFence (c :: cs) = c :: stripTrailingFence cs := by
        rw [stripTrailingFence_step, if_neg]
        rw [hf]
        simp
      rcases ih with h | ⟨p, rest, hpl, hws, hstrip⟩
      · left; rw [hstep, h]
      · right
        exact ⟨c :: p, rest, by rw [hpl]; rfl, hws, by rw [hstep, hstrip]⟩

theorem jsTrimList_all_ws {l : List Char} (h : l.all isJsWhitespace = true) :
    jsTrimList l = [] := by
  unfold jsTrimList
  have hd : l.dropWhile isJsWhitespace = [] := by
    rw [List.dropWhile_eq_nil_iff]
    intro x hx
    exact List.all_eq_true.mp h x hx
  rw [hd]
  rfl

/-- Dropping leading whitespace is idempotent. -/
theorem dropWhile_ws_idem (l : List Char) :
    (l.dropWhile isJsWhitespace).dropWhile isJsWhitespace = l.dropWhile isJsWhitespace := by
  induction l with
  | nil => rfl
  | cons c cs ih =>
    cases h : isJsWhitespace c with
    | true => rw [List.dropWhile_cons, if_pos h, ih]
    | false =>
      rw [List.dropWhile_cons, if_neg (by rw [h]; simp), List.dropWhile_cons,
        if_neg (by rw [h]; simp)]

/-- Trimming is unaffected by first dropping leading whitespace. -/
theorem jsTrimList_dropWhile (l : List Char) :
    jsTrimList (l.dropWhile isJsWhitespace) = jsTrimList l := by
  unfold jsTrimList
  rw [dropWhile_ws_idem]

/-- Appending a single whitespace character does not change the trim. -/
theorem jsTrimList_snoc_ws (l : List Char) (c : Char) (hc : isJsWhitespace c = true) :
    jsTrimList (l ++ [c]) = jsTrimList l := by
  unfold jsTrimList
  by_cases ha : l.all isJsWhitespace = true
  · have hd : l.dropWhile isJsWhitespace = [] := by
      rw [List.dropWhile_eq_nil_iff]
      intro x hx
      exact List.all_eq_true.mp ha x hx
    rw [List.dropWhile_append, hd]
    simp [hc, hd]
  · have hne : (l.dropWhile isJsWhitespace).isEmpty = false := by
      cases hd : l.dropWhile isJsWhitespace with
      | nil =>
        exact absurd (by
          rw [List.all_eq_true]
          exact fun x hx => List.dropWhile_eq_nil_iff.mp hd x hx) ha
      | cons a as => rfl
    rw [List.dropWhile_append, if_neg (by rw [hne]; simp), List.reverse_append]
    have hrev : ([c].reverse : List Char) = [c] := rfl
    rw [hrev, List.singleton_append, List.dropWhile_cons, if_pos hc]

/-- Cleaning a response of the shape `` ```bibtex␊inner␊``` `` (any casing of
the marker letters, backtick-free inner text) yields exactly the trimmed inner
text. -/
theorem clean_wrapped (d e f g h i : Char)
    (hd : lowEq d 'b' = true) (he : lowEq e 'i' = true) (hf : lowEq f 'b' = true)
    (hg : lowEq g 't' = true) (hh : lowEq h 'e' = true) (hi : lowEq i 'x' = true)
    (inner : List Char) (hin : ∀ c ∈ inner, c ≠ backtick) :
    jsTrimList (stripTrailingFence (replaceBibtexAll
      (backtick :: backtick :: backtick :: d :: e :: f :: g :: h :: i :: '\n' ::
        (inner ++ ['\n', backtick, backtick, backtick])))) = jsTrimList inner := by
  have h0 : replaceBibtexAll
      (backtick :: backtick :: backtick :: d :: e :: f :: g :: h :: i :: '\n' ::
        (inner ++ ['\n', backtick, backtick, backtick])) =
      replAux 0 true ('\n' :: (inner ++ ['\n', backtick, backtick, backtick])) :=
    replAux_marker d e f g h i _ hd he hf hg hh hi
  rw [h0, replAux_true_eq, List.dropWhile_cons,
    if_pos (show isJsWhitespace '\n' = true by decide), List.dropWhile_append]
  cases hemp : (inner.dropWhile isJsWhitespace).isEmpty with
  | true =>
    rw [if_pos rfl]
    have hws : inner.all isJsWhitespace = true := by
      rw [List.all_eq_true]
      intro x hx
      have hnil : inner.dropWhile isJsWhitespace = [] := by
        cases hdd : inner.dropWhile isJsWhitespace with
        | nil => rfl
        | cons a as => rw [hdd] at hemp; cases hemp
      exact List.dropWhile_eq_nil_iff.mp hnil x hx
    have hcalc : jsTrimList (stripTrailingFence (replAux 0 false
        (List.dropWhile isJsWhitespace ['\n', backtick, backtick, backtick]))) = [] := by decide
    rw [hcalc, jsTrimList_all_ws hws]
  | false =>
    rw [if_neg (by simp)]
    have hl'bt : ∀ c ∈ inner.dropWhile isJsWhitespace, c ≠ backtick := fun c hc =>
      hin c ((List.dropWhile_sublist _).subset hc)
    rw [replAux_append _ _ hl'bt,
      show replAux 0 false ['\n', backtick, backtick, backtick] =
        ['\n', backtick, backtick, backtick] by decide,
      stripTrailingFence_append _ _ hl'bt,
      show stripTrailingFence ['\n', backtick, backtick, backtick] = ['\n'] by decide]
    rw [jsTrimList_snoc_ws _ '\n' (by decide), jsTrimList_dropWhile]

theorem makeAPIRequestGas_ok (oracle : Nat → NetOutcome) (tmo gas a : Nat) (s : String)
    (h : attemptOutcome (oracle a) = .ok s) :
    makeAPIRequestGas oracle tmo gas a = ⟨.ok s, 1, [], [tmo]⟩ := by
  cases gas <;> simp [makeAPIRequestGas, h]

theorem makeAPIRequestGas_err_zero (oracle : Nat → NetOutcome) (tmo a : Nat) (e : ThrownValue)
    (h : attemptOutcome (oracle a) = .error e) :
    makeAPIRequestGas oracle tmo 0 a = ⟨.error e, 1, [], [tmo]⟩ := by
  simp [makeAPIRequestGas, h]

/-- The retry step: with attempts remaining, a failed attempt `a` waits
`1000 * a` ms and continues with attempt `a + 1`. -/
theorem makeAPIRequestGas_err_succ (oracle : Nat → NetOutcome) (tmo g a : Nat) (e : ThrownValue)
    (h : attemptOutcome (oracle a) = .error e) :
    makeAPIRequestGas oracle tmo (g + 1) a =
      ⟨(makeAPIRequestGas oracle tmo g (a + 1)).result,
        (makeAPIRequestGas oracle tmo g (a + 1)).attemptsMade + 1,
        1000 * a :: (makeAPIRequestGas oracle tmo g (a + 1)).delays,
        tmo :: (makeAPIRequestGas oracle tmo g (a + 1)).timeoutsScheduled⟩ := by
  simp [makeAPIRequestGas, h]

theorem makeAPIRequestGas_attempts_pos (oracle : Nat → NetOutcome) (tmo gas a : Nat) :
    1 ≤ (makeAPIRequestGas oracle tmo gas a).attemptsMade := by
  cases gas with
  | zero =>
    cases h : attemptOutcome (oracle a) with
    | ok s => rw [makeAPIRequestGas_ok oracle tmo 0 a s h]
    | error e => rw [makeAPIRequestGas_err_zero oracle tmo a e h]
  | succ g =>
    cases h : attemptOutcome (oracle a) with
    | ok s => rw [makeAPIRequestGas_ok oracle tmo _ a s h]
    | error e =>
      rw [makeAPIRequestGas_err_succ oracle tmo g a e h]
      exact Nat.le_add_left 1 _

/-- At most `gas + 1` attempts are ever made. -/
theorem makeAPIRequestGas_attempts_le (oracle : Nat → NetOutcome) (tmo gas : Nat) :
    ∀ a, (makeAPIRequestGas oracle tmo gas a).attemptsMade ≤ gas + 1 := by
  induction gas with
  | zero =>
    intro a
    cases h : attemptOutcome (oracle a) with
    | ok s => rw [makeAPIRequestGas_ok oracle tmo 0 a s h]
    | error e => rw [makeAPIRequestGas_err_zero oracle tmo a e h]
  | succ g ih =>
    intro a
    cases h : attemptOutcome (oracle a) with
    | ok s =>
      rw [makeAPIRequestGas_ok oracle tmo _ a s h]
      exact Nat.le_add_left 1 _
    | error e =>
      have h2 : (makeAPIRequestGas oracle tmo (g + 1) a).attemptsMade =
          (makeAPIRequestGas oracle tmo g (a + 1)).attemptsMade + 1 := by
        rw [makeAPIRequestGas_err_succ oracle tmo g a e h]
      rw [h2]
      have := ih (a + 1)
      omega

/-- The delay before the retry that follows failed attempt `k` is exactly
`1000 * k` ms: starting from attempt `a`, the recorded delays are
`[1000*a, 1000*(a+1), ...]`, one per failed-and-retried attempt. -/
theorem makeAPIRequestGas_delays (oracle : Nat → NetOutcome) (tmo gas : Nat) :
    ∀ a, (makeAPIRequestGas oracle tmo gas a).delays =
      (List.range ((makeAPIRequestGas oracle tmo gas a).attemptsMade - 1)).map
        (fun k => 1000 * (a + k)) := by
  induction gas with
  | zero =>
    intro a
    cases h : attemptOutcome (oracle a) with
    | ok s => rw [makeAPIRequestGas_ok oracle tmo 0 a s h]; rfl
    | error e => rw [makeAPIRequestGas_err_zero oracle tmo a e h]; rfl
  | succ g ih =>
    intro a
    cases h : attemptOutcome (oracle a) with
    | ok s => rw [makeAPIRequestGas_ok oracle tmo _ a s h]; rfl
    | error e =>
      rw [makeAPIRequestGas_err_succ oracle tmo g a e h]
      dsimp only
      rw [ih (a + 1)]
      obtain ⟨m, hm⟩ : ∃ m, (makeAPIRequestGas oracle tmo g (a + 1)).attemptsMade = m + 1 :=
        ⟨_, (Nat.succ_pred_eq_of_pos (makeAPIRequestGas_attempts_pos oracle tmo g (a + 1))).symm⟩
      rw [hm]
      simp only [Nat.add_sub_cancel, List.range_succ_eq_map, List.map_cons, List.map_map,
        Nat.add_zero]
      congr 1
      congr 1
      funext k
      simp only [Function.comp_apply]
      omega

/-- Every attempt schedules one abort timer of duration `tmo`. -/
theorem makeAPIRequestGas_timeouts (oracle : Nat → NetOutcome) (tmo gas : Nat) :
    ∀ a, (makeAPIRequestGas oracle tmo gas a).timeoutsScheduled =
      List.replicate (makeAPIRequestGas oracle tmo gas a).attemptsMade tmo := by
  induction gas with
  | zero =>
    intro a
    cases h : attemptOutcome (oracle a) with
    | ok s => rw [makeAPIRequestGas_ok oracle tmo 0 a s h]; rfl
    | error e => rw [makeAPIRequestGas_err_zero oracle tmo a e h]; rfl
  | succ g ih =>
    intro a
    cases h : attemptOutcome (oracle a) with
    | ok s => rw [makeAPIRequestGas_ok oracle tmo _ a s h]; rfl
    | error e =>
      rw [makeAPIRequestGas_err_succ oracle tmo g a e h]
      dsimp only
      rw [ih (a + 1), List.replicate_succ]

theorem mapGet_mapSet_self (m : List (String × String)) (k v : String) :
    mapGet (mapSet m k v) k = some v := by
  induction m with
  | nil => simp [mapGet, mapSet]
  | cons kv rest ih =>
    obtain ⟨k', v'⟩ := kv
    by_cases h : k' = k
    · simp [mapGet, mapSet, h]
    · simp [mapGet, mapSet, h, ih]

theorem mapGet_mapSet_ne (m : List (String × String)) (k v k2 : String) (h : k2 ≠ k) :
    mapGet (mapSet m k v) k2 = mapGet m k2 := by
  have hne : k ≠ k2 := fun hh => h hh.symm
  induction m with
  | nil =>
    simp only [mapSet, mapGet]
    rw [if_neg hne]
  | cons kv rest ih =>
    obtain ⟨k', v'⟩ := kv
    by_cases h1 : k' = k
    · subst h1
      simp only [mapSet, if_pos rfl, mapGet]
      rw [if_neg hne, if_neg hne]
    · simp only [mapSet, if_neg h1, mapGet]
      by_cases h2 : k' = k2
      · simp [h2]
      · simp [h2, ih]

/-- Cache fast path: with a key configured, non-empty trimmed input and a
truthy cached value, the cached result is returned with no network
activity. -/
theorem convertToBibTeX_hit (apiKey : String) (cache : List (String × String))
    (template : String) (oracle : Nat → NetOutcome) (tmo mr : Nat) (input v : String)
    (hk : apiKey ≠ "") (ht : jsTrim input ≠ "") (hv : mapGet cache (jsTrim input) = some v)
    (hv' : v ≠ "") :
    convertToBibTeX apiKey cache template oracle tmo mr input =
      ⟨⟨true, some v, none⟩, cache, 0, [], none⟩ := by
  simp only [convertToBibTeX, if_neg hk, if_neg ht, hv]
  rw [if_neg hv']

/-- Network path: with a key configured, non-empty trimmed input and no truthy
cache entry, the call performs exactly one `makeAPIRequest` and returns its
outcome (caching truthy successes, classifying errors). -/
theorem convertToBibTeX_net (apiKey : String) (cache : List (String × String))
    (template : String) (oracle : Nat → NetOutcome) (tmo mr : Nat) (input : String)
    (hk : apiKey ≠ "") (ht : jsTrim input ≠ "")
    (hm : mapGet cache (jsTrim input) = none ∨ mapGet cache (jsTrim input) = some "") :
    convertToBibTeX apiKey cache template oracle tmo mr input =
      match (makeAPIRequest oracle tmo (maxRetriesOr3 mr) 1).result with
      | .ok r =>
        ⟨⟨true, some r, none⟩,
          if r = "" then cache else mapSet cache (jsTrim input) r,
          (makeAPIRequest oracle tmo (maxRetriesOr3 mr) 1).attemptsMade,
          (makeAPIRequest oracle tmo (maxRetriesOr3 mr) 1).delays,
          some (template ++ "\n\nConvert this APA reference to BibTeX:\n\n" ++ input)⟩
      | .error e =>
        ⟨⟨false, none, some (getErrorMessage e)⟩, cache,
          (makeAPIRequest oracle tmo (maxRetriesOr3 mr) 1).attemptsMade,
          (makeAPIRequest oracle tmo (maxRetriesOr3 mr) 1).delays,
          some (template ++ "\n\nConvert this APA reference to BibTeX:\n\n" ++ input)⟩ := by
  rcases hm with hm | hm
  · simp only [convertToBibTeX, if_neg hk, if_neg ht, hm]
  · simp only [convertToBibTeX, if_neg hk, if_neg ht, hm]
    rw [if_pos trivial]

/-- `getErrorMessage` yields a non-empty message for every non-`Error` value
and for every `Error` whose own message is non-empty. -/
theorem getErrorMessage_ne_empty (e : ThrownValue)
    (he : ∀ m, e = .jsError m → m ≠ "") : getErrorMessage e ≠ "" := by
  cases e with
  | nonError => simp [getErrorMessage]
  | jsError m =>
    have hm : m ≠ "" := he m rfl
    simp only [getErrorMessage]
    split_ifs <;> simp_all

/-- C7: when no API credential is present (the key read from the settings
store is the empty string, i.e. JS-falsy), `convertToBibTeX` returns the
specific "not configured" failure result immediately — for every cache,
template, network behaviour and input — with zero network attempts, no retry
delays, no prompt sent and an unchanged cache. -/
theorem c7_not_configured (cache : List (String × String)) (template : String)
    (oracle : Nat → NetOutcome) (tmo mr : Nat) (input : String) :
    convertToBibTeX "" cache template oracle tmo mr input =
      ⟨⟨false, none, some notConfiguredMsg⟩, cache, 0, [], none⟩ := rfl

/-- C9: the credential check runs before both the empty-input check and the
cache lookup — with no API key, the call returns the "not configured" failure
even when the input is empty/whitespace-only or a cache entry exists for the
trimmed input. -/
theorem c9_key_check_first (cache : List (String × String)) (template : String)
    (oracle : Nat → NetOutcome) (tmo mr : Nat) (input : String)
    (_h : jsTrim input = "" ∨ mapGet cache (jsTrim input) ≠ none) :
    convertToBibTeX "" cache template oracle tmo mr input =
      ⟨⟨false, none, some notConfiguredMsg⟩, cache, 0, [], none⟩ := rfl

/-- C9 witness: with no key, an input whose trimmed text has a cache entry
still gets the "not configured" failure, not the cached result. -/
theorem c9_witness :
    (jsTrim " r " = "" ∨ mapGet [("r", "@b")] (jsTrim " r ") ≠ none) ∧
      convertToBibTeX "" [("r", "@b")] "T" (fun _ => .failed .nonError) 30000 3 " r " =
        ⟨⟨false, none, some notConfiguredMsg⟩, [("r", "@b")], 0, [], none⟩ :=
  ⟨Or.inr (by decide),
    c9_key_check_first [("r", "@b")] "T" (fun _ => .failed .nonError) 30000 3 " r "
      (Or.inr (by decide))⟩

/-- C5 counterexample: with a credential configured, a whitespace-only input
does NOT silently no-op — `convertToBibTeX` returns a failure result whose
`error` field carries the message "Please provide an APA reference to
convert.", so an error is surfaced to the caller, contrary to the claim. -/
theorem c5_counterexample :
    (convertToBibTeX "k" [] "T" (fun _ => .failed .nonError) 30000 3 " ").result =
        ⟨false, none, some "Please provide an APA reference to convert."⟩ ∧
      (convertToBibTeX "k" [] "T" (fun _ => .failed .nonError) 30000 3 " ").result.error ≠
        none := by
  decide

/-- C5 (amended): empty/whitespace-only input never triggers a network
attempt, performs no retry delay and leaves the cache unchanged; but rather
than surfacing no error, with a credential configured the call returns a
failure result carrying the fixed message "Please provide an APA reference to
convert." (the UI caller independently skips conversion for empty input, so
no message is shown to the user). -/
theorem c5_empty_input (apiKey : String) (cache : List (String × String)) (template : String)
    (oracle : Nat → NetOutcome) (tmo mr : Nat) (input : String) (h : jsTrim input = "") :
    (convertToBibTeX apiKey cache template oracle tmo mr input).networkAttempts = 0 ∧
    (convertToBibTeX apiKey cache template oracle tmo mr input).delays = [] ∧
    (convertToBibTeX apiKey cache template oracle tmo mr input).cache = cache ∧
    (apiKey ≠ "" → convertToBibTeX apiKey cache template oracle tmo mr input =
      ⟨⟨false, none, some emptyInputMsg⟩, cache, 0, [], none⟩) := by
  by_cases hk : apiKey = ""
  · subst hk
    exact ⟨rfl, rfl, rfl, fun hh => absurd rfl hh⟩
  · have heq : convertToBibTeX apiKey cache template oracle tmo mr input =
        ⟨⟨false, none, some emptyInputMsg⟩, cache, 0, [], none⟩ := by
      unfold convertToBibTeX
      rw [if_neg hk, if_pos h]
    exact ⟨by rw [heq], by rw [heq], by rw [heq], fun _ => heq⟩

/-- C5 witness: the amended statement at a concrete whitespace-only input. -/
theorem c5_witness :
    jsTrim " \n " = "" ∧
      ((convertToBibTeX "k" [] "T" (fun _ => .failed .nonError) 30000 3 " \n ").networkAttempts
          = 0 ∧
        (convertToBibTeX "k" [] "T" (fun _ => .failed .nonError) 30000 3 " \n ").delays = [] ∧
        (convertToBibTeX "k" [] "T" (fun _ => .failed .nonError) 30000 3 " \n ").cache = [] ∧
        (("k" : String) ≠ "" →
          convertToBibTeX "k" [] "T" (fun _ => .failed .nonError) 30000 3 " \n " =
            ⟨⟨false, none, some emptyInputMsg⟩, [], 0, [], none⟩)) :=
  ⟨by decide, c5_empty_input "k" [] "T" (fun _ => .failed .nonError) 30000 3 " \n " (by decide)⟩

/-- C4 counterexample: if every attempt rejects with a JS `Error` whose
`message` is empty, the returned failure result carries `some ""` — an EMPTY
message — because `getErrorMessage` matches no category and passes the
message through, contradicting the claim that the message is always
non-empty.  (The call still returns a failure result rather than
propagating.) -/
theorem c4_counterexample :
    (convertToBibTeX "k" [] "T" (fun _ => .failed (.jsError "")) 30000 3 "x").result.success
        = false ∧
      (convertToBibTeX "k" [] "T" (fun _ => .failed (.jsError "")) 30000 3 "x").result.error =
        some "" := by
  decide

/-- C4 (amended): for every input, `convertToBibTeX` is a total function into
result values — when the single logical request ends in an error after its
attempts, the call returns a failure result carrying the classified message
`getErrorMessage e` (nothing is propagated as an uncaught fault), and that
message is non-empty provided the final thrown value is not an `Error` with
an empty own message. -/
theorem c4_failure_result (apiKey : String) (cache : List (String × String))
    (template : String) (oracle : Nat → NetOutcome) (tmo mr : Nat) (input : String)
    (e : ThrownValue) (hk : apiKey ≠ "") (ht : jsTrim input ≠ "")
    (hm : mapGet cache (jsTrim input) = none)
    (he : (makeAPIRequest oracle tmo (maxRetriesOr3 mr) 1).result = .error e) :
    convertToBibTeX apiKey cache template oracle tmo mr input =
      ⟨⟨false, none, some (getErrorMessage e)⟩, cache,
        (makeAPIRequest oracle tmo (maxRetriesOr3 mr) 1).attemptsMade,
        (makeAPIRequest oracle tmo (maxRetriesOr3 mr) 1).delays,
        some (template ++ "\n\nConvert this APA reference to BibTeX:\n\n" ++ input)⟩ ∧
    ((∀ m, e = .jsError m → m ≠ "") → getErrorMessage e ≠ "") := by
  constructor
  · rw [convertToBibTeX_net apiKey cache template oracle tmo mr input hk ht (Or.inl hm), he]
  · exact getErrorMessage_ne_empty e

/-- C4 witness: all three attempts fail with `Error("boom")`; the call returns
the classified (non-empty) failure result. -/
theorem c4_witness :
    ("k" : String) ≠ "" ∧ jsTrim "x" ≠ "" ∧ mapGet [] (jsTrim "x") = none ∧
      (makeAPIRequest (fun _ => .failed (.jsError "boom")) 30000 (maxRetriesOr3 3) 1).result =
        .error (.jsError "boom") ∧
      (convertToBibTeX "k" [] "T" (fun _ => .failed (.jsError "boom")) 30000 3 "x" =
          ⟨⟨false, none, some (getErrorMessage (.jsError "boom"))⟩, [],
            (makeAPIRequest (fun _ => .failed (.jsError "boom")) 30000 (maxRetriesOr3 3)
                1).attemptsMade,
            (makeAPIRequest (fun _ => .failed (.jsError "boom")) 30000 (maxRetriesOr3 3)
                1).delays,
            some ("T" ++ "\n\nConvert this APA reference to BibTeX:\n\n" ++ "x")⟩ ∧
        ((∀ m, ThrownValue.jsError "boom" = .jsError m → m ≠ "") →
          getErrorMessage (.jsError "boom") ≠ "")) :=
  ⟨by decide, by decide, by decide, by decide,
    c4_failure_result "k" [] "T" (fun _ => .failed (.jsError "boom")) 30000 3 "x"
      (.jsError "boom") (by decide) (by decide) (by decide) (by decide)⟩

/-- C8: every attempt is subject to the fixed abort timer: the constructor
default timeout is 30000 ms (30 s), every attempt of a request schedules one
abort timer of duration `config.timeout`, and an attempt that fails — in
particular one rejected with the abort error raised when its timer fires — is
retried (after the linear-backoff wait) while attempts remain under the
limit. -/
theorem c8_timeout_behaviour (st : String) (oracle : Nat → NetOutcome) (tmo mr a : Nat)
    (e : ThrownValue) (h : oracle 1 = .failed e) :
    (mkServiceConfig st {}).timeout = 30000 ∧
    (makeAPIRequest oracle tmo mr a).timeoutsScheduled =
      List.replicate (makeAPIRequest oracle tmo mr a).attemptsMade tmo ∧
    makeAPIRequest oracle tmo 3 1 =
      ⟨(makeAPIRequest oracle tmo 3 2).result,
        (makeAPIRequest oracle tmo 3 2).attemptsMade + 1,
        1000 :: (makeAPIRequest oracle tmo 3 2).delays,
        tmo :: (makeAPIRequest oracle tmo 3 2).timeoutsScheduled⟩ := by
  refine ⟨rfl, makeAPIRequestGas_timeouts oracle tmo (mr - a) a, ?_⟩
  have ha : attemptOutcome (oracle 1) = .error e := by rw [h]; rfl
  exact makeAPIRequestGas_err_succ oracle tmo 1 1 e ha

/-- C8 witness: a first attempt rejected with the abort error ("Request was
aborted.") is retried as attempt 2 after a 1000 ms wait, and each attempt
scheduled a 30000 ms abort timer. -/
theorem c8_witness :
    (fun _ : Nat => NetOutcome.failed (.jsError "Request was aborted.")) 1 =
        .failed (.jsError "Request was aborted.") ∧
      ((mkServiceConfig "" {}).timeout = 30000 ∧
        (makeAPIRequest (fun _ => .failed (.jsError "Request was aborted.")) 30000 3
            1).timeoutsScheduled =
          List.replicate
            ((makeAPIRequest (fun _ => .failed (.jsError "Request was aborted.")) 30000 3
                1).attemptsMade) 30000 ∧
        makeAPIRequest (fun _ => .failed (.jsError "Request was aborted.")) 30000 3 1 =
          ⟨(makeAPIRequest (fun _ => .failed (.jsError "Request was aborted.")) 30000 3 2).result,
            (makeAPIRequest (fun _ => .failed (.jsError "Request was aborted.")) 30000 3
                2).attemptsMade + 1,
            1000 ::
              (makeAPIRequest (fun _ => .failed (.jsError "Request was aborted.")) 30000 3
                  2).delays,
            30000 ::
              (makeAPIRequest (fun _ => .failed (.jsError "Request was aborted.")) 30000 3
                  2).timeoutsScheduled⟩) :=
  ⟨rfl, c8_timeout_behaviour "" (fun _ => .failed (.jsError "Request was aborted.")) 30000 3 1
    (.jsError "Request was aborted.") rfl⟩

/-- C2: for an uncached non-empty input with a credential configured (and the
default retry limit 3, as produced by the constructor), the call performs
exactly one logical request — its network attempts and delays are those of a
single `makeAPIRequest` starting at attempt 1 — spanning at most 3 attempts;
the wait before the retry that follows failed attempt `k` is exactly
`k * 1000` ms (linear backoff); and if attempts 1 and 2 fail while attempt 3
succeeds, the final result is a success, exactly 3 attempts were made, and
the delays `[1000, 2000]` are strictly increasing. -/
theorem c2_retry_behaviour (st : String) (apiKey : String)
    (cache : List (String × String)) (template : String) (oracle : Nat → NetOutcome)
    (tmo : Nat) (input : String) (hk : apiKey ≠ "") (ht : jsTrim input ≠ "")
    (hm : mapGet cache (jsTrim input) = none) :
    (mkServiceConfig st {}).maxRetries = 3 ∧
    (convertToBibTeX apiKey cache template oracle tmo 3 input).networkAttempts =
      (makeAPIRequest oracle tmo 3 1).attemptsMade ∧
    (convertToBibTeX apiKey cache template oracle tmo 3 input).delays =
      (makeAPIRequest oracle tmo 3 1).delays ∧
    (makeAPIRequest oracle tmo 3 1).attemptsMade ≤ 3 ∧
    (makeAPIRequest oracle tmo 3 1).delays =
      (List.range ((makeAPIRequest oracle tmo 3 1).attemptsMade - 1)).map
        (fun k => 1000 * (k + 1)) ∧
    (∀ e1 e2 c, oracle 1 = .failed e1 → oracle 2 = .failed e2 → oracle 3 = .ok (some c) →
      c ≠ "" →
      (convertToBibTeX apiKey cache template oracle tmo 3 input).result.success = true ∧
      (convertToBibTeX apiKey cache template oracle tmo 3 input).networkAttempts = 3 ∧
      (convertToBibTeX apiKey cache template oracle tmo 3 input).delays = [1000, 2000] ∧
      List.Chain' (· < ·) (convertToBibTeX apiKey cache template oracle tmo 3 input).delays) := by
  have hnorm : maxRetriesOr3 3 = 3 := rfl
  have hgen := convertToBibTeX_net apiKey cache template oracle tmo 3 input hk ht (Or.inl hm)
  rw [hnorm] at hgen
  refine ⟨rfl, ?_, ?_, ?_, ?_, ?_⟩
  · rw [hgen]
    cases hres : (makeAPIRequest oracle tmo 3 1).result <;> rfl
  · rw [hgen]
    cases hres : (makeAPIRequest oracle tmo 3 1).result <;> rfl
  · exact makeAPIRequestGas_attempts_le oracle tmo 2 1
  · have hd := makeAPIRequestGas_delays oracle tmo 2 1
    refine hd.trans ?_
    congr 1
    funext k
    omega
  · intro e1 e2 c h1 h2 h3 hc
    have ha1 : attemptOutcome (oracle 1) = .error e1 := by rw [h1]; rfl
    have ha2 : attemptOutcome (oracle 2) = .error e2 := by rw [h2]; rfl
    have ha3 : attemptOutcome (oracle 3) = .ok (cleanBibTeXResponse c) := by
      rw [h3]
      simp [attemptOutcome, hc]
    have s3 : makeAPIRequestGas oracle tmo 0 3 =
        ⟨.ok (cleanBibTeXResponse c), 1, [], [tmo]⟩ :=
      makeAPIRequestGas_ok oracle tmo 0 3 _ ha3
    have s2 : makeAPIRequestGas oracle tmo 1 2 =
        ⟨.ok (cleanBibTeXResponse c), 2, [2000], [tmo, tmo]⟩ := by
      have hstep := makeAPIRequestGas_err_succ oracle tmo 0 2 e2 ha2
      rw [s3] at hstep
      exact hstep
    have s1 : makeAPIRequestGas oracle tmo 2 1 =
        ⟨.ok (cleanBibTeXResponse c), 3, [1000, 2000], [tmo, tmo, tmo]⟩ := by
      have hstep := makeAPIRequestGas_err_succ oracle tmo 1 1 e1 ha1
      rw [s2] at hstep
      exact hstep
    have htr : makeAPIRequest oracle tmo 3 1 =
        ⟨.ok (cleanBibTeXResponse c), 3, [1000, 2000], [tmo, tmo, tmo]⟩ := s1
    rw [htr] at hgen
    refine ⟨by rw [hgen], by rw [hgen], by rw [hgen], ?_⟩
    rw [hgen]
    dsimp only
    rw [List.chain'_cons]
    exact ⟨by norm_num, List.chain'_singleton _⟩

/-- C2 witness: attempts 1 and 2 fail, attempt 3 succeeds; the call succeeds
after exactly 3 attempts with strictly increasing delays `[1000, 2000]`. -/
theorem c2_witness :
    ("k" : String) ≠ "" ∧ jsTrim "x" ≠ "" ∧ mapGet [] (jsTrim "x") = none ∧
      ((mkServiceConfig "" {}).maxRetries = 3 ∧
        (convertToBibTeX "k" [] "T" c2WitOracle 30000 3 "x").networkAttempts =
          (makeAPIRequest c2WitOracle 30000 3 1).attemptsMade ∧
        (convertToBibTeX "k" [] "T" c2WitOracle 30000 3 "x").delays =
          (makeAPIRequest c2WitOracle 30000 3 1).delays ∧
        (makeAPIRequest c2WitOracle 30000 3 1).attemptsMade ≤ 3 ∧
        (makeAPIRequest c2WitOracle 30000 3 1).delays =
          (List.range ((makeAPIRequest c2WitOracle 30000 3 1).attemptsMade - 1)).map
            (fun k => 1000 * (k + 1)) ∧
        (∀ e1 e2 c, c2WitOracle 1 = .failed e1 → c2WitOracle 2 = .failed e2 →
          c2WitOracle 3 = .ok (some c) → c ≠ "" →
          (convertToBibTeX "k" [] "T" c2WitOracle 30000 3 "x").result.success = true ∧
          (convertToBibTeX "k" [] "T" c2WitOracle 30000 3 "x").networkAttempts = 3 ∧
          (convertToBibTeX "k" [] "T" c2WitOracle 30000 3 "x").delays = [1000, 2000] ∧
          List.Chain' (· < ·) (convertToBibTeX "k" [] "T" c2WitOracle 30000 3 "x").delays)) :=
  ⟨by decide, by decide, by decide,
    c2_retry_behaviour "" "k" [] "T" c2WitOracle 30000 "x" (by decide) (by decide) (by decide)⟩

/-- C3: the cache is keyed by trimmed input text and (1) a hit — a cached,
truthy value for the trimmed input — is returned immediately with no network
attempt and no cache change; (2) a call whose result is a failure never
changes the cache (population only on success); (3) no call ever removes an
entry; (4) any change the call makes to the cache is at the trimmed input key
and stores a non-empty value; and (5) for an uncached input whose first
attempt succeeds, the first call makes exactly one network attempt and a
second call with identical trimmed text makes zero — one network call across
the two invocations, returning the cached cleaned text. -/
theorem c3_cache_behaviour (apiKey : String) (cache : List (String × String))
    (template : String) (oracle oracle2 : Nat → NetOutcome) (tmo tmo2 mr mr2 : Nat)
    (input : String) (hk : apiKey ≠ "") (ht : jsTrim input ≠ "") :
    (∀ v, mapGet cache (jsTrim input) = some v → v ≠ "" →
      convertToBibTeX apiKey cache template oracle tmo mr input =
        ⟨⟨true, some v, none⟩, cache, 0, [], none⟩) ∧
    ((convertToBibTeX apiKey cache template oracle tmo mr input).result.success = false →
      (convertToBibTeX apiKey cache template oracle tmo mr input).cache = cache) ∧
    (∀ k, mapGet cache k ≠ none →
      mapGet (convertToBibTeX apiKey cache template oracle tmo mr input).cache k ≠ none) ∧
    (∀ k, mapGet (convertToBibTeX apiKey cache template oracle tmo mr input).cache k ≠
        mapGet cache k →
      k = jsTrim input ∧ ∃ r, r ≠ "" ∧
        mapGet (convertToBibTeX apiKey cache template oracle tmo mr input).cache k = some r) ∧
    (mapGet cache (jsTrim input) = none →
      ∀ c, oracle 1 = .ok (some c) → cleanBibTeXResponse c ≠ "" →
        (convertToBibTeX apiKey cache template oracle tmo mr input).networkAttempts = 1 ∧
        (∀ input2, jsTrim input2 = jsTrim input →
          (convertToBibTeX apiKey
              (convertToBibTeX apiKey cache template oracle tmo mr input).cache template
              oracle2 tmo2 mr2 input2).networkAttempts = 0 ∧
          (convertToBibTeX apiKey
              (convertToBibTeX apiKey cache template oracle tmo mr input).cache template
              oracle2 tmo2 mr2 input2).result =
            ⟨true, some (cleanBibTeXResponse c), none⟩)) := by
  have hDnet : (mapGet cache (jsTrim input) = none ∨ mapGet cache (jsTrim input) = some "") →
      (convertToBibTeX apiKey cache template oracle tmo mr input).cache = cache ∨
      (∃ r, r ≠ "" ∧
        (convertToBibTeX apiKey cache template oracle tmo mr input).cache =
          mapSet cache (jsTrim input) r ∧
        (convertToBibTeX apiKey cache template oracle tmo mr input).result.success = true) := by
    intro hm
    have hnet := convertToBibTeX_net apiKey cache template oracle tmo mr input hk ht hm
    cases hres : (makeAPIRequest oracle tmo (maxRetriesOr3 mr) 1).result with
    | ok r =>
      rw [hres] at hnet
      dsimp only at hnet
      by_cases hr : r = ""
      · subst hr
        rw [if_pos rfl] at hnet
        left
        rw [hnet]
      · rw [if_neg hr] at hnet
        right
        exact ⟨r, hr, by rw [hnet], by rw [hnet]⟩
    | error e =>
      rw [hres] at hnet
      dsimp only at hnet
      left
      rw [hnet]
  have hD : (convertToBibTeX apiKey cache template oracle tmo mr input).cache = cache ∨
      (∃ r, r ≠ "" ∧
        (convertToBibTeX apiKey cache template oracle tmo mr input).cache =
          mapSet cache (jsTrim input) r ∧
        (convertToBibTeX apiKey cache template oracle tmo mr input).result.success = true) := by
    cases hmg : mapGet cache (jsTrim input) with
    | none => exact hDnet (Or.inl hmg)
    | some v =>
      by_cases hv : v = ""
      · subst hv
        exact hDnet (Or.inr hmg)
      · left
        rw [convertToBibTeX_hit apiKey cache template oracle tmo mr input v hk ht hmg hv]
  refine ⟨?_, ?_, ?_, ?_, ?_⟩
  · intro v hv hv'
    exact convertToBibTeX_hit apiKey cache template oracle tmo mr input v hk ht hv hv'
  · intro hfail
    rcases hD with h | ⟨r, hr, hcc, hsucc⟩
    · exact h
    · rw [hsucc] at hfail
      cases hfail
  · intro k hk0
    rcases hD with h | ⟨r, hr, hcc, hsucc⟩
    · rw [h]; exact hk0
    · rw [hcc]
      by_cases hkk : k = jsTrim input
      · subst hkk
        rw [mapGet_mapSet_self]
        simp
      · rw [mapGet_mapSet_ne cache (jsTrim input) r k hkk]
        exact hk0
  · intro k hneq
    rcases hD with h | ⟨r, hr, hcc, hsucc⟩
    · rw [h] at hneq
      exact absurd rfl hneq
    · rw [hcc] at hneq
      by_cases hkk : k = jsTrim input
      · subst hkk
        rw [hcc, mapGet_mapSet_self]
        exact ⟨rfl, r, hr, rfl⟩
      · rw [mapGet_mapSet_ne cache (jsTrim input) r k hkk] at hneq
        exact absurd rfl hneq
  · intro hmg c hoc hclean
    have hc : c ≠ "" := by
      intro hcc
      subst hcc
      exact hclean rfl
    have ha1 : attemptOutcome (oracle 1) = .ok (cleanBibTeXResponse c) := by
      rw [hoc]
      simp [attemptOutcome, hc]
    have htr : makeAPIRequest oracle tmo (maxRetriesOr3 mr) 1 =
        ⟨.ok (cleanBibTeXResponse c), 1, [], [tmo]⟩ :=
      makeAPIRequestGas_ok oracle tmo _ 1 _ ha1
    have hnet := convertToBibTeX_net apiKey cache template oracle tmo mr input hk ht
      (Or.inl hmg)
    rw [htr] at hnet
    dsimp only at hnet
    rw [if_neg hclean] at hnet
    refine ⟨by rw [hnet], ?_⟩
    intro input2 hin2
    have ht2 : jsTrim input2 ≠ "" := by rw [hin2]; exact ht
    have hv2 : mapGet (convertToBibTeX apiKey cache template oracle tmo mr input).cache
        (jsTrim input2) = some (cleanBibTeXResponse c) := by
      rw [hnet]
      dsimp only
      rw [hin2, mapGet_mapSet_self]
    have hhit := convertToBibTeX_hit apiKey
      (convertToBibTeX apiKey cache template oracle tmo mr input).cache template oracle2
      tmo2 mr2 input2 (cleanBibTeXResponse c) hk ht2 hv2 hclean
    exact ⟨by rw [hhit], by rw [hhit]⟩

/-- C3 witness: an uncached input "x" whose first attempt succeeds with
"@r"; the first call makes one network attempt, a second call with input
" x " (same trimmed text) makes zero. -/
theorem c3_witness :
    ("k" : String) ≠ "" ∧ jsTrim "x" ≠ "" ∧ mapGet [] (jsTrim "x") = none ∧
      (fun _ : Nat => NetOutcome.ok (some "@r")) 1 = .ok (some "@r") ∧
      cleanBibTeXResponse "@r" ≠ "" ∧ jsTrim " x " = jsTrim "x" ∧
      (convertToBibTeX "k" [] "T" (fun _ => .ok (some "@r")) 30000 3 "x").networkAttempts
        = 1 ∧
      (convertToBibTeX "k"
          (convertToBibTeX "k" [] "T" (fun _ => .ok (some "@r")) 30000 3 "x").cache "T"
          (fun _ => .failed .nonError) 30000 3 " x ").networkAttempts = 0 ∧
      (convertToBibTeX "k"
          (convertToBibTeX "k" [] "T" (fun _ => .ok (some "@r")) 30000 3 "x").cache "T"
          (fun _ => .failed .nonError) 30000 3 " x ").result =
        ⟨true, some (cleanBibTeXResponse "@r"), none⟩ := by
  refine ⟨by decide, by decide, by decide, rfl, by decide, by decide, ?_, ?_, ?_⟩
  · exact (((c3_cache_behaviour "k" [] "T" (fun _ => .ok (some "@r"))
      (fun _ => .failed .nonError) 30000 30000 3 3 "x" (by decide) (by decide)).2.2.2.2
        (by decide) "@r" rfl (by decide)).1)
  · exact ((((c3_cache_behaviour "k" [] "T" (fun _ => .ok (some "@r"))
      (fun _ => .failed .nonError) 30000 30000 3 3 "x" (by decide) (by decide)).2.2.2.2
        (by decide) "@r" rfl (by decide)).2 " x " (by decide)).1)
  · exact ((((c3_cache_behaviour "k" [] "T" (fun _ => .ok (some "@r"))
      (fun _ => .failed .nonError) 30000 30000 3 3 "x" (by decide) (by decide)).2.2.2.2
        (by decide) "@r" rfl (by decide)).2 " x " (by decide)).2)

/-- C6: a successful response wrapped in a markdown code fence —
`` ```bibtex `` (case-insensitive) plus newline before the inner text and a
newline plus `` ``` `` after it — is cleaned to exactly the inner text: both
fences are removed and surrounding whitespace is trimmed, for every
backtick-free inner text. -/
theorem c6_fenced_response_cleaned (inner : String)
    (hin : ∀ c ∈ inner.data, c ≠ backtick) :
    cleanBibTeXResponse ("```bibtex\n" ++ inner ++ "\n```") =
      String.mk (jsTrimList inner.data) ∧
    cleanBibTeXResponse ("```BibTeX\n" ++ inner ++ "\n```") =
      String.mk (jsTrimList inner.data) := by
  have htail : ("\n```" : String).data = ['\n', backtick, backtick, backtick] := by decide
  constructor
  · have hlit : ("```bibtex\n" : String).data =
        [backtick, backtick, backtick, 'b', 'i', 'b', 't', 'e', 'x', '\n'] := by decide
    unfold cleanBibTeXResponse
    congr 1
    rw [String.data_append, String.data_append, List.append_assoc, hlit, htail]
    exact clean_wrapped 'b' 'i' 'b' 't' 'e' 'x' (by decide) (by decide) (by decide)
      (by decide) (by decide) (by decide) inner.data hin
  · have hlit : ("```BibTeX\n" : String).data =
        [backtick, backtick, backtick, 'B', 'i', 'b', 'T', 'e', 'X', '\n'] := by decide
    unfold cleanBibTeXResponse
    congr 1
    rw [String.data_append, String.data_append, List.append_assoc, hlit, htail]
    exact clean_wrapped 'B' 'i' 'b' 'T' 'e' 'X' (by decide) (by decide) (by decide)
      (by decide) (by decide) (by decide) inner.data hin

/-- C6 witness: the fence-wrapped concrete response is cleaned to exactly the
inner text, in both casings of the marker. -/
theorem c6_witness :
    (∀ c ∈ ("@article of key" : String).data, c ≠ backtick) ∧
      (cleanBibTeXResponse ("```bibtex\n" ++ "@article of key" ++ "\n```") =
          String.mk (jsTrimList ("@article of key" : String).data) ∧
        cleanBibTeXResponse ("```BibTeX\n" ++ "@article of key" ++ "\n```") =
          String.mk (jsTrimList ("@article of key" : String).data)) :=
  ⟨by decide, c6_fenced_response_cleaned "@article of key" (by decide)⟩

/-- C10: (1) a `/```bibtex\s*/i` match is removed wherever it occurs in the
text — any backtick-free prefix is kept, the nine marker characters and the
whitespace run after them are deleted, and scanning continues; (2) the second
replacement removes a plain `` ``` `` only as a whitespace-trailed suffix
(either the text is unchanged or exactly a `` ``` ``-plus-whitespace suffix
is removed); so (3) inner content containing `` ```bibtex `` is altered, and
(4) a response opening with a plain `` ``` `` fence keeps that leading fence
after cleaning. -/
theorem c10_cleaning_details (pre post : List Char) (hpre : ∀ c ∈ pre, c ≠ backtick)
    (d e f g h i : Char) (hd : lowEq d 'b' = true) (he : lowEq e 'i' = true)
    (hf : lowEq f 'b' = true) (hg : lowEq g 't' = true) (hh : lowEq h 'e' = true)
    (hi : lowEq i 'x' = true) :
    replaceBibtexAll
        (pre ++ backtick :: backtick :: backtick :: d :: e :: f :: g :: h :: i :: post) =
      pre ++ replaceBibtexAll (post.dropWhile isJsWhitespace) ∧
    (∀ l : List Char, stripTrailingFence l = l ∨
      ∃ p rest, l = p ++ backtick :: backtick :: backtick :: rest ∧
        rest.all isJsWhitespace = true ∧ stripTrailingFence l = p) ∧
    cleanBibTeXResponse "@a ```bibtex b" = "@a b" ∧
    cleanBibTeXResponse "```\n@x\n```" = "```\n@x" := by
  refine ⟨?_, stripTrailingFence_spec, by decide, by decide⟩
  unfold replaceBibtexAll
  rw [replAux_append pre _ hpre, replAux_marker d e f g h i post hd he hf hg hh hi,
    replAux_true_eq]

/-- C10 witness: the universal parts at a concrete mid-text occurrence. -/
theorem c10_witness :
    (∀ c ∈ (['@', 'a'] : List Char), c ≠ backtick) ∧
      lowEq 'b' 'b' = true ∧ lowEq 'i' 'i' = true ∧ lowEq 'b' 'b' = true ∧
      lowEq 't' 't' = true ∧ lowEq 'e' 'e' = true ∧ lowEq 'x' 'x' = true ∧
      (replaceBibtexAll
          (['@', 'a'] ++ backtick :: backtick :: backtick ::
            'b' :: 'i' :: 'b' :: 't' :: 'e' :: 'x' :: [' ', 'z']) =
        ['@', 'a'] ++ replaceBibtexAll ([' ', 'z'].dropWhile isJsWhitespace) ∧
      (∀ l : List Char, stripTrailingFence l = l ∨
        ∃ p rest, l = p ++ backtick :: backtick :: backtick :: rest ∧
          rest.all isJsWhitespace = true ∧ stripTrailingFence l = p) ∧
      cleanBibTeXResponse "@a ```bibtex b" = "@a b" ∧
      cleanBibTeXResponse "```\n@x\n```" = "```\n@x") :=
  ⟨by decide, by decide, by decide, by decide, by decide, by decide, by decide,
    c10_cleaning_details ['@', 'a'] [' ', 'z'] (by decide) 'b' 'i' 'b' 't' 'e' 'x'
      (by decide) (by decide) (by decide) (by decide) (by decide) (by decide)⟩

/-- C1 counterexample: in the schedule `c1Sched`, the first call's request is
superseded — after the prefix `c1SchedPre` it awaits controller 0, which the
second call's issuance has aborted — yet its eventual resolution is NOT
discarded: the abort is caught by the retry logic as an ordinary failure, the
superseded call retries, succeeds with "A", returns that success to its
caller (its task finishes with a success result) and stores it in the shared
cache alongside the second call's "B".  Both calls' outcomes are observable,
refuting "the superseded call's eventual resolution has no observable effect
(its result is discarded) and only the most recent call's outcome is
visible". -/
theorem c1_counterexample :
    (orchRun "k" c1Input c1Oracle 3 (orchInit []) c1SchedPre).phase0 =
        .awaitingNet 0 1 ∧
      (orchRun "k" c1Input c1Oracle 3 (orchInit []) c1SchedPre).aborted.contains 0 = true ∧
      (orchRun "k" c1Input c1Oracle 3 (orchInit []) c1Sched).phase0 =
        .finished ⟨true, some "A", none⟩ ∧
      (orchRun "k" c1Input c1Oracle 3 (orchInit []) c1Sched).phase1 =
        .finished ⟨true, some "B", none⟩ ∧
      mapGet (orchRun "k" c1Input c1Oracle 3 (orchInit []) c1Sched).cache "x" = some "A" ∧
      mapGet (orchRun "k" c1Input c1Oracle 3 (orchInit []) c1Sched).cache "y" = some "B" := by
  decide

/-- C1 (amended): along every schedule from every initial cache, at most one
non-aborted vendor request is pending at any time (single flight), and a step
in which one task issues a request while the other task's non-aborted request
is pending aborts that pending request's controller first (the
`cancelInFlight()` at the start of every attempt).  However, the superseded
call's resolution is not discarded: the abort surfaces in the superseded call
as a retryable failure, so that call retries and its eventual outcome is
returned to its caller and cached — observable alongside the most recent
call's outcome. -/
theorem c1_single_flight (apiKey : String) (input : Bool → String)
    (oracle : Bool → Nat → NetOutcome) (mr : Nat) (cache0 : List (String × String))
    (sched : List OrchEvent) (_hkey : apiKey ≠ "") :
    singleFlight (orchRun apiKey input oracle mr (orchInit cache0) sched) ∧
    cancelsPrior apiKey input oracle mr
      (orchRun apiKey input oracle mr (orchInit cache0) sched) := by
  have hinv := orchRun_inv apiKey input oracle mr (orchInit_inv cache0) sched
  exact ⟨singleFlight_of_inv hinv, cancelsPrior_of_inv apiKey input oracle mr hinv⟩

/-- C1 witness: the single-flight and cancel-before-issue properties at the
concrete supersession schedule. -/
theorem c1_witness :
    ("k" : String) ≠ "" ∧
      (singleFlight (orchRun "k" c1Input c1Oracle 3 (orchInit []) c1SchedPre) ∧
        cancelsPrior "k" c1Input c1Oracle 3
          (orchRun "k" c1Input c1Oracle 3 (orchInit []) c1SchedPre)) :=
  ⟨by decide, c1_single_flight "k" c1Input c1Oracle 3 [] c1SchedPre (by decide)⟩

end BiblGPT
